import Mathlib

/-!
Verification development for the Med_articles_bot pipeline.

The Python sources (db.py, summarize_ru.py, telegram_bot.py) are shallowly
embedded below: the SQLite tables become lists of records, the Gemini client
becomes an oracle `Nat → CallOutcome` indexed by attempt number, wall-clock
timestamps become explicit `now` arguments, and side-effecting diagnostics
(print statements, raw-output dump files, sleeps) are dropped as they carry
no data flow.  String primitives mirror the Python/SQLite ones on the ASCII
fragment actually exercised by the program.
-/

namespace MedBot

/-- Python truthiness of an optional string: `None` and `""` are falsy. -/
def truthy : Option String → Bool
  | none => false
  | some s => s ≠ ""

/-- Python `a or b` for optional strings (falsy `a` falls through to `b`). -/
def pyOr (a b : Option String) : Option String := if truthy a then a else b

/-- Python `opt or default` where the default is a plain string. -/
def orStr (a : Option String) (b : String) : String :=
  match a with
  | some s => if s = "" then b else s
  | none => b

/-- Truthiness test used for `if not summary_en:` style checks. -/
def notTruthyStr : Option String → Bool
  | none => true
  | some s => s = ""

/-- Python `str.strip()` (whitespace on the ASCII fragment). -/
def pyStrip (s : String) : String :=
  String.mk (((s.data.dropWhile Char.isWhitespace).reverse.dropWhile Char.isWhitespace).reverse)

/-- Python `str.rstrip()`. -/
def pyRstrip (s : String) : String :=
  String.mk ((s.data.reverse.dropWhile Char.isWhitespace).reverse)

/-- Python `str.upper()` (ASCII). -/
def pyUpper (s : String) : String := String.mk (s.data.map Char.toUpper)

/-- Python `suffix in s` style `str.endswith`. -/
def strEndsWith (s suffix : String) : Bool := suffix.data.isSuffixOf s.data

/-- Substring containment, `needle in hay` in Python. -/
def strContains (hay needle : String) : Bool :=
  hay.data.tails.any (fun t => needle.data.isPrefixOf t)

/-- `"MAX_TOKENS" in finish_reason.upper()`. -/
def upperContains (hay needle : String) : Bool := strContains (pyUpper hay) needle

/-- `text.replace("\r\n", "\n")` at character level. -/
def replaceCrLf : List Char → List Char
  | [] => []
  | '\r' :: '\n' :: rest => '\n' :: replaceCrLf rest
  | c :: rest => c :: replaceCrLf rest

/-- Python `sep.join(parts)`. -/
def pyJoin (sep : String) : List String → String
  | [] => ""
  | [x] => x
  | x :: rest => x ++ sep ++ pyJoin sep rest

/-- Python `"\n".join(parts)`. -/
def joinNl (parts : List String) : String := pyJoin "\n" parts

/-- SQLite `TRIM` (strips space characters only). -/
def sqlTrim (s : String) : String :=
  String.mk (((s.data.dropWhile (· = ' ')).reverse.dropWhile (· = ' ')).reverse)

/-- SQLite `substr(s, 1, 10)`. -/
def sqlSubstr10 (s : String) : String := String.mk (s.data.take 10)

/-- Stable insertion of `x` into `l`: `x` goes after every `y` with `le y x`. -/
def insertLe (le : α → α → Bool) (x : α) : List α → List α
  | [] => [x]
  | y :: ys => if le y x then y :: insertLe le x ys else x :: y :: ys

/-- Stable insertion sort by a boolean `le`. -/
def isortBy (le : α → α → Bool) (l : List α) : List α := l.foldr (insertLe le) []

/-- Boolean string order (binary collation stand-in). -/
def strLe (a b : String) : Bool := decide (a < b) || a == b

/-- SQLite ordering on a nullable text column, `NULL` smallest. -/
def optStrLe : Option String → Option String → Bool
  | none, _ => true
  | some _, none => false
  | some a, some b => strLe a b

/-- Lexicographic order on `(journal, title_en)` used by `ORDER BY`. -/
def optPairLe (a b : Option String × Option String) : Bool :=
  if a.1 == b.1 then optStrLe a.2 b.2 else optStrLe a.1 b.1

/-- Python `sorted({p for p in pmids if p})`: drop falsy, dedup, sort. -/
def pyUniqueSorted (l : List String) : List String :=
  isortBy strLe ((l.filter (fun p => p ≠ "")).dedup)

/-! ## Token accounting (summarize_ru.py: zero_tokens / add_tokens) -/

/-- TokenStats dict from summarize_ru.py. -/
structure TokenStats where
  input : Nat
  output : Nat
  total : Nat
deriving Repr, DecidableEq

/-- `zero_tokens()`. -/
def zero_tokens : TokenStats := ⟨0, 0, 0⟩

/-- `add_tokens(acc, delta)` (returning the updated accumulator). -/
def add_tokens (acc delta : TokenStats) : TokenStats :=
  ⟨acc.input + delta.input, acc.output + delta.output, acc.total + delta.total⟩

/-! ## Completion guard (summarize_ru.py: is_incomplete_text) -/

/-- Does the right-trimmed text end in `,`, `;` or `:` (regex `[,;:]$`)? -/
def endsInPunct (s : String) : Bool :=
  match s.data.reverse with
  | [] => false
  | c :: _ => c = ',' || c = ';' || c = ':'

/-- `is_incomplete_text(text, finish_reason)` from summarize_ru.py. -/
def is_incomplete_text (text finish_reason : String) : Bool :=
  if text = "" then true
  else
    let tail := pyRstrip text
    if finish_reason ≠ "" && upperContains finish_reason "MAX_TOKENS" then true
    else if strEndsWith tail "..." then true
    else if endsInPunct tail then true
    else false

/-! ## Section parser (summarize_ru.py: parse_sections) -/

/-- Model of the line regex `^([A-Z_]+):\s*(.*)$`: on a match, returns the
tag and the stripped trailing text (the code strips `group(2)` anyway). -/
def tagSplit (line : String) : Option (String × String) :=
  let cs := line.data
  let tag := cs.takeWhile (fun c => c.isUpper || c = '_')
  match cs.drop tag.length with
  | ':' :: rest => if tag.isEmpty then none else some (String.mk tag, pyStrip (String.mk rest))
  | _ => none

/-- Append a finished block to the entry of key `k`. -/
def secAppend (secs : List (String × List (List String))) (k : String) (b : List String) :
    List (String × List (List String)) :=
  secs.map (fun e => if e.1 = k then (e.1, e.2 ++ [b]) else e)

/-- `flush_block()`: record the current block (if any and nonempty). -/
def psFlush (cur : Option (String × List String))
    (secs : List (String × List (List String))) : List (String × List (List String)) :=
  match cur with
  | none => secs
  | some (k, b) => if b.isEmpty then secs else secAppend secs k b

/-- `current_block.append(line)` when a current key is open. -/
def contAppend (cur : Option (String × List String)) (line : String) :
    Option (String × List String) :=
  match cur with
  | none => none
  | some (k, b) => some (k, b ++ [line])

/-- The line-scanning loop of `parse_sections`. -/
def psLoop (keys : List String) : List String → Option (String × List String) →
    List (String × List (List String)) → List (String × List (List String))
  | [], cur, secs => psFlush cur secs
  | line :: rest, cur, secs =>
    match tagSplit line with
    | some (t, head) =>
      if keys.contains t then
        psLoop keys rest (some (t, if head = "" then [] else [head])) (psFlush cur secs)
      else
        psLoop keys rest (contAppend cur line) secs
    | none => psLoop keys rest (contAppend cur line) secs

/-- `re.sub(r"\n{3,}", "\n\n", s)`: each maximal run of `n` newlines becomes
`min n 2` newlines. -/
def collapseAux : List Char → Nat → List Char
  | [], pending => List.replicate (min pending 2) '\n'
  | c :: rest, pending =>
    if c = '\n' then collapseAux rest (pending + 1)
    else List.replicate (min pending 2) '\n' ++ (c :: collapseAux rest 0)

/-- Collapse 3+ consecutive newline characters to exactly two. -/
def collapseBlank (s : String) : String := String.mk (collapseAux s.data 0)

/-- Python `max(candidates, key=len)`: first candidate of maximal length. -/
def maxByLen (first : String) (rest : List String) : String :=
  rest.foldl (fun best c => if c.length > best.length then c else best) first

/-- `"\n".join(block).strip()`. -/
def blockValue (b : List String) : String := pyStrip (joinNl b)

/-- The per-key post-processing of `parse_sections`. -/
def sectionValue (blocks : List (List String)) : Option String :=
  let candidates := blocks.filterMap (fun b =>
    let v := blockValue b
    if v = "" then none else some v)
  match candidates with
  | [] => none
  | c :: cs => some (collapseBlank (maxByLen c cs))

/-- Helper of `pySplitlines`: split accumulated characters at newlines. -/
def splitNlAux : List Char → List Char → List String
  | [], acc => [String.mk acc.reverse]
  | '\n' :: rest, acc => String.mk acc.reverse :: splitNlAux rest []
  | c :: rest, acc => splitNlAux rest (c :: acc)

/-- Python `str.splitlines()` on newline-normalised text. -/
def pySplitlines (s : String) : List String := if s = "" then [] else splitNlAux s.data []

/-- `parse_sections(text, keys)` from summarize_ru.py; the result dict is a
key/value list in `keys` order. -/
def parse_sections (text : String) (keys : List String) : List (String × Option String) :=
  if text = "" then keys.map (fun k => (k, none))
  else
    let raw := pyStrip (String.mk (replaceCrLf text.data))
    let secs := psLoop keys (pySplitlines raw) none (keys.map (fun k => (k, [])))
    keys.map (fun k => (k,
      match secs.lookup k with
      | some blocks => sectionValue blocks
      | none => none))

/-- `parsed[key]` access on the result of `parse_sections`. -/
def sectionOf (text : String) (keys : List String) (k : String) : Option String :=
  ((parse_sections text keys).lookup k).getD none

/-! ## Gemini call model and retry loops (summarize_ru.py) -/

/-- `SUMMARY_TARGET_CHARS`. -/
def SUMMARY_TARGET_CHARS : Nat := 1000

/-- `MAX_MODEL_RETRIES`. -/
def MAX_MODEL_RETRIES : Nat := 6

/-- `build_en_summary_prompt(abstract_en)` (the f-string, already stripped). -/
def build_en_summary_prompt (abstract_en : String) : String :=
  "Summarize the abstract in English.\n\nRules:\n- Use only the facts in the abstract.\n" ++
  "- Plain text only, no markdown, no bullets.\n- Target length is about " ++
  toString SUMMARY_TARGET_CHARS ++ " characters.\n" ++
  "- Keep it concise but complete (do not end with ellipsis).\n\n" ++
  "Return strictly in this format:\nEN_SUMMARY:\n...\n\nABSTRACT (EN):\n" ++ abstract_en

/-- `build_translate_prompt(title_en, summary_en)`. -/
def build_translate_prompt (title_en summary_en : String) : String :=
  "Translate to Russian:\n1) Article title\n2) English summary\n\nRules:\n" ++
  "- Preserve meaning and clinical details.\n" ++
  "- Translate the full summary completely, without omissions or shortening.\n" ++
  "- Plain text only, no markdown, no bullets.\n\n" ++
  "Return strictly in this format:\nRU_TITLE: ...\nRU_SUMMARY:\n...\n\nTITLE (EN): " ++
  title_en ++ "\n\nSUMMARY (EN):\n" ++ summary_en

/-- One provider interaction: either a response (text, finish reason, usage)
or a raised exception, classified by `is_resource_exhausted`. -/
inductive CallOutcome where
  | resp (text finishReason : String) (tokens : TokenStats)
  | exn (rateLimited : Bool) (exnName : String)
deriving Repr, DecidableEq

/-- `call_gemini`: strips the response text and forwards usage; an exception
propagates as an error. -/
def call_gemini (o : CallOutcome) : Except (Bool × String) (String × String × TokenStats) :=
  match o with
  | .resp t fr tk => .ok (pyStrip t, fr, tk)
  | .exn rl n => .error (rl, n)

/-- Token usage an attempt reports: exceptions report none. -/
def tokensReported : CallOutcome → TokenStats
  | .resp _ _ tk => tk
  | .exn _ _ => zero_tokens

/-- Sum of reported usage over attempts `start, start+1, …, start+n-1`. -/
def sumReportedFrom (oracle : Nat → CallOutcome) : Nat → Nat → TokenStats
  | _, 0 => zero_tokens
  | start, n + 1 =>
    add_tokens (tokensReported (oracle start)) (sumReportedFrom oracle (start + 1) n)

/-- Result triple of `summarize_abstract_en`: payload, tokens, failure reason. -/
abbrev EnResult := Option String × TokenStats × Option String

/-- The retry loop of `summarize_abstract_en` (fuel = remaining attempts;
backoff sleeps and diagnostics files dropped). -/
def en_loop (oracle : Nat → CallOutcome) :
    Nat → Nat → String → TokenStats → String → String → EnResult
  | 0, _, _, acc, _, lastFr =>
    (none, acc, some ("en_incomplete:" ++ (if lastFr = "" then "unknown" else lastFr)))
  | fuel + 1, attempt, prompt, acc, lastText, lastFr =>
    match call_gemini (oracle attempt) with
    | .error (true, _) => en_loop oracle fuel (attempt + 1) prompt acc lastText lastFr
    | .error (false, name) => (none, acc, some ("en_exception:" ++ name))
    | .ok (text, fr, tk) =>
      let acc2 := add_tokens acc tk
      match sectionOf text ["EN_SUMMARY"] "EN_SUMMARY" with
      | none =>
        en_loop oracle fuel (attempt + 1)
          ("Format is invalid. Return exactly EN_SUMMARY field.\n\n" ++ prompt) acc2 text fr
      | some s =>
        if s = "" then
          en_loop oracle fuel (attempt + 1)
            ("Format is invalid. Return exactly EN_SUMMARY field.\n\n" ++ prompt) acc2 text fr
        else if is_incomplete_text s fr then
          en_loop oracle fuel (attempt + 1)
            ("Summary is incomplete. Return a complete summary with a full ending and no ellipsis.\n\n"
              ++ prompt) acc2 text fr
        else if s.length < 200 then
          en_loop oracle fuel (attempt + 1)
            ("Summary is too short. Rewrite around 1000 characters.\n\n" ++ prompt) acc2 text fr
        else (some s, acc2, none)

/-- `summarize_abstract_en(client, pmid, abstract_en)`; the client is the
attempt-indexed oracle, the pmid only named diagnostics files. -/
def summarize_abstract_en (oracle : Nat → CallOutcome) (abstract_en : String) : EnResult :=
  en_loop oracle MAX_MODEL_RETRIES 0 (build_en_summary_prompt abstract_en) zero_tokens "" ""

/-- Number of loop iterations (provider calls) `en_loop` executes; branches
exactly as `en_loop`, which only consults the oracle response. -/
def en_attempts_aux (oracle : Nat → CallOutcome) : Nat → Nat → Nat
  | 0, _ => 0
  | fuel + 1, attempt =>
    match call_gemini (oracle attempt) with
    | .error (true, _) => 1 + en_attempts_aux oracle fuel (attempt + 1)
    | .error (false, _) => 1
    | .ok (text, fr, _) =>
      match sectionOf text ["EN_SUMMARY"] "EN_SUMMARY" with
      | none => 1 + en_attempts_aux oracle fuel (attempt + 1)
      | some s =>
        if s = "" then 1 + en_attempts_aux oracle fuel (attempt + 1)
        else if is_incomplete_text s fr then 1 + en_attempts_aux oracle fuel (attempt + 1)
        else if s.length < 200 then 1 + en_attempts_aux oracle fuel (attempt + 1)
        else 1

/-- Attempts made by one run of `summarize_abstract_en`. -/
def en_attempts (oracle : Nat → CallOutcome) : Nat :=
  en_attempts_aux oracle MAX_MODEL_RETRIES 0

/-- Result triple of `translate_summary_ru`. -/
abbrev RuResult := Option (String × String) × TokenStats × Option String

/-- The retry loop of `translate_summary_ru`. -/
def ru_loop (oracle : Nat → CallOutcome) :
    Nat → Nat → String → TokenStats → String → String → RuResult
  | 0, _, _, acc, _, lastFr =>
    (none, acc, some ("ru_incomplete:" ++ (if lastFr = "" then "unknown" else lastFr)))
  | fuel + 1, attempt, prompt, acc, lastText, lastFr =>
    match call_gemini (oracle attempt) with
    | .error (true, _) => ru_loop oracle fuel (attempt + 1) prompt acc lastText lastFr
    | .error (false, name) => (none, acc, some ("ru_exception:" ++ name))
    | .ok (text, fr, tk) =>
      let acc2 := add_tokens acc tk
      let ruTitle := sectionOf text ["RU_TITLE", "RU_SUMMARY"] "RU_TITLE"
      let ruSummary := sectionOf text ["RU_TITLE", "RU_SUMMARY"] "RU_SUMMARY"
      if notTruthyStr ruTitle || notTruthyStr ruSummary then
        ru_loop oracle fuel (attempt + 1)
          ("Format is invalid. Return only RU_TITLE and RU_SUMMARY.\n\n" ++ prompt) acc2 text fr
      else if is_incomplete_text (ruSummary.getD "") fr then
        ru_loop oracle fuel (attempt + 1)
          ("RU summary is incomplete. Translate the entire English summary and end with a full sentence.\n\n"
            ++ prompt) acc2 text fr
      else ((some (ruTitle.getD "", ruSummary.getD ""), acc2, none) : RuResult)

/-- `translate_summary_ru(client, pmid, title_en, summary_en)`. -/
def translate_summary_ru (oracle : Nat → CallOutcome) (title_en summary_en : String) : RuResult :=
  ru_loop oracle MAX_MODEL_RETRIES 0 (build_translate_prompt title_en summary_en) zero_tokens "" ""

/-- Number of provider calls `ru_loop` executes. -/
def ru_attempts_aux (oracle : Nat → CallOutcome) : Nat → Nat → Nat
  | 0, _ => 0
  | fuel + 1, attempt =>
    match call_gemini (oracle attempt) with
    | .error (true, _) => 1 + ru_attempts_aux oracle fuel (attempt + 1)
    | .error (false, _) => 1
    | .ok (text, fr, _) =>
      let ruTitle := sectionOf text ["RU_TITLE", "RU_SUMMARY"] "RU_TITLE"
      let ruSummary := sectionOf text ["RU_TITLE", "RU_SUMMARY"] "RU_SUMMARY"
      if notTruthyStr ruTitle || notTruthyStr ruSummary then
        1 + ru_attempts_aux oracle fuel (attempt + 1)
      else if is_incomplete_text (ruSummary.getD "") fr then
        1 + ru_attempts_aux oracle fuel (attempt + 1)
      else 1

/-- Attempts made by one run of `translate_summary_ru`. -/
def ru_attempts (oracle : Nat → CallOutcome) : Nat :=
  ru_attempts_aux oracle MAX_MODEL_RETRIES 0

/-! ## Message rendering (summarize_ru.py: make_telegram_html) and db rows -/

/-- `html.escape(s)` on one character (quote=True default). -/
def htmlEscapeChar (c : Char) : String :=
  if c = '&' then "&amp;"
  else if c = '<' then "&lt;"
  else if c = '>' then "&gt;"
  else if c = Char.ofNat 34 then "&quot;"
  else if c = Char.ofNat 39 then "&#x27;"
  else String.singleton c

/-- `html.escape(s)`. -/
def html_escape (s : String) : String := String.join (s.data.map htmlEscapeChar)

/-- The `authors_str` computation of `make_telegram_html`. -/
def authorsStr (authors : List String) : String :=
  let base := pyJoin ", " (authors.take 8)
  if authors.length > 8 then base ++ " (+" ++ toString (authors.length - 8) ++ ")" else base

/-- `make_telegram_html(title_ru, journal, date, authors, summary_ru, link)`. -/
def make_telegram_html (title_ru journal date : String) (authors : List String)
    (summary_ru link : String) : String :=
  "<b>" ++ html_escape title_ru ++ "</b>\n" ++
  "<i>" ++ html_escape journal ++ "</i> - " ++ html_escape date ++ "\n" ++
  "Авторы: " ++ html_escape (authorsStr authors) ++ "\n" ++
  "\n<b>Краткое резюме (по аннотации):</b>\n" ++
  html_escape summary_ru ++ "\n" ++
  "\n<a href=\"" ++ html_escape link ++ "\">Оригинальная статья</a>"

/-- One row of the `articles` table (db.py: init_db).  `authors_json` holds
the decoded author list; the JSON round-trip is modelled as identity. -/
structure ArticleRow where
  pmid : String
  journal : Option String := none
  publication_date : Option String := none
  title_en : Option String := none
  abstract_en : Option String := none
  summary_en : Option String := none
  authors_json : List String := []
  doi : Option String := none
  link : Option String := none
  pubmed_url : Option String := none
  doi_url : Option String := none
  fetched_at : Option String := none
  title_ru : Option String := none
  abstract_ru : Option String := none
  summary_ru : Option String := none
  tg_message_html : Option String := none
  summarized_at : Option String := none
  sent_at : Option String := none
deriving Repr, DecidableEq

/-- The `articles` table. -/
abbrev Db := List ArticleRow

/-- One fetched payload dict as consumed by `upsert_raw_articles`. -/
structure FetchedArticle where
  pmid : Option String := none
  journal : Option String := none
  publication_date : Option String := none
  title : Option String := none
  abstract : Option String := none
  authors : List String := []
  doi : Option String := none
  links_pubmed : Option String := none
  links_doi : Option String := none
deriving Repr, DecidableEq

/-- The tuple `upsert_raw_articles` builds per payload (db.py lines 109-133). -/
def rowOfFetched (a : FetchedArticle) (now : String) : ArticleRow :=
  let doiUrl := a.links_doi
  let pubmedUrl := a.links_pubmed
  { pmid := a.pmid.getD ""
    journal := a.journal
    publication_date := a.publication_date
    title_en := a.title
    abstract_en := a.abstract
    authors_json := a.authors
    doi := a.doi
    link := pyOr doiUrl pubmedUrl
    pubmed_url := pubmedUrl
    doi_url := doiUrl
    fetched_at := some now }

/-- `ON CONFLICT(pmid) DO UPDATE SET …`: only the English/raw-metadata
columns take the excluded row's values. -/
def conflictUpdate (old excluded : ArticleRow) : ArticleRow :=
  { old with
    journal := excluded.journal
    publication_date := excluded.publication_date
    title_en := excluded.title_en
    abstract_en := excluded.abstract_en
    authors_json := excluded.authors_json
    doi := excluded.doi
    link := excluded.link
    pubmed_url := excluded.pubmed_url
    doi_url := excluded.doi_url
    fetched_at := excluded.fetched_at }

/-- INSERT one row with `ON CONFLICT(pmid) DO UPDATE` against a table whose
primary key is `pmid`. -/
def upsertRow (db : Db) (r : ArticleRow) : Db :=
  if db.any (fun x => x.pmid == r.pmid) then
    db.map (fun x => if x.pmid == r.pmid then conflictUpdate x r else x)
  else db ++ [r]

/-- `upsert_raw_articles(articles)`: skip falsy pmids, build rows, executemany
the upsert, return the number of rows written. -/
def upsert_raw_articles (db : Db) (articles : List FetchedArticle) (now : String) : Db × Nat :=
  let rows := (articles.filter (fun a => truthy a.pmid)).map (fun a => rowOfFetched a now)
  (rows.foldl upsertRow db, rows.length)

/-- `mark_summarized(pmid, title_ru, summary_en, summary_ru, tg_message_html,
abstract_ru)`: one UPDATE setting all summarization columns at once. -/
def mark_summarized (db : Db) (pmid title_ru summary_en summary_ru tg_message_html : String)
    (abstract_ru : Option String) (now : String) : Db :=
  db.map (fun r =>
    if r.pmid == pmid then
      { r with
        title_ru := some title_ru
        summary_en := some summary_en
        abstract_ru := abstract_ru
        summary_ru := some summary_ru
        tg_message_html := some tg_message_html
        summarized_at := some now }
    else r)

/-- `mark_sent(pmid)`. -/
def mark_sent (db : Db) (pmid : String) (now : String) : Db :=
  db.map (fun r => if r.pmid == pmid then { r with sent_at := some now } else r)

/-- `get_existing_pmids(pmids)`: the (sorted, deduplicated, truthy) query
pmids that have a row. -/
def get_existing_pmids (db : Db) (pmids : List String) : List String :=
  (pyUniqueSorted pmids).filter (fun p => db.any (fun r => r.pmid == p))

/-- The WHERE clause of `get_unsummarized_for_pmids`. -/
def pendingPred (unique : List String) (r : ArticleRow) : Bool :=
  r.summarized_at.isNone && r.abstract_en.isSome &&
    decide (0 < (sqlTrim (r.abstract_en.getD "")).length) && unique.contains r.pmid

/-- `ORDER BY fetched_at DESC` (SQLite: NULLs sort last under DESC). -/
def sortByFetchedDesc (l : List ArticleRow) : List ArticleRow :=
  isortBy (fun a b => optStrLe b.fetched_at a.fetched_at) l

/-- `get_unsummarized_for_pmids(pmids, limit)`. -/
def get_unsummarized_for_pmids (db : Db) (pmids : List String) (limit : Nat) : List ArticleRow :=
  if pmids.isEmpty then []
  else
    let unique := pyUniqueSorted pmids
    if unique.isEmpty then []
    else (sortByFetchedDesc (db.filter (pendingPred unique))).take limit

/-- `get_summarized_by_date(target_date)`. -/
def get_summarized_by_date (db : Db) (target : String) : List ArticleRow :=
  isortBy (fun a b => optPairLe (a.journal, a.title_en) (b.journal, b.title_en))
    (db.filter (fun r =>
      r.summarized_at.isSome && sqlSubstr10 (r.publication_date.getD "") == target))

/-- One row of `delivery_log` (primary key `(chat_id, target_date)`). -/
structure DeliveryRow where
  chat_id : Int
  target_date : String
  article_count : Nat
  sent_at : String
deriving Repr, DecidableEq

/-- `mark_delivery(chat_id, target_date, article_count)` (upsert). -/
def mark_delivery (log : List DeliveryRow) (chat : Int) (target : String) (count : Nat)
    (now : String) : List DeliveryRow :=
  if log.any (fun r => r.chat_id == chat && r.target_date == target) then
    log.map (fun r =>
      if r.chat_id == chat && r.target_date == target then
        { r with article_count := count, sent_at := now }
      else r)
  else log ++ [⟨chat, target, count, now⟩]

/-- `was_delivered(chat_id, target_date)`. -/
def was_delivered (log : List DeliveryRow) (chat : Int) (target : String) : Bool :=
  log.any (fun r => r.chat_id == chat && r.target_date == target)

/-- One row of `fetch_runs` (primary key `target_date`). -/
structure FetchRunRow where
  target_date : String
  mode : String
  fetched_count : Nat
  fetched_at : String
deriving Repr, DecidableEq

/-- `mark_fetch_run(target_date, mode, fetched_count)` (upsert). -/
def mark_fetch_run (runs : List FetchRunRow) (target mode : String) (count : Nat)
    (now : String) : List FetchRunRow :=
  if runs.any (fun r => r.target_date == target) then
    runs.map (fun r =>
      if r.target_date == target then
        { r with mode := mode, fetched_count := count, fetched_at := now }
      else r)
  else runs ++ [⟨target, mode, count, now⟩]

/-- `has_fetch_run(target_date)`. -/
def has_fetch_run (runs : List FetchRunRow) (target : String) : Bool :=
  runs.any (fun r => r.target_date == target)

/-! ## Two-stage summarizer and pipeline orchestrator (summarize_ru.py) -/

/-- `summarize_one(client, row)`: the two model stages are driven by the two
attempt-indexed oracles. -/
def summarize_one (oA oB : Nat → CallOutcome) (row : ArticleRow) :
    Option (String × String × String × String) × TokenStats × Option String :=
  let title_en := row.title_en.getD ""
  let abstract_en := row.abstract_en.getD ""
  let journal := row.journal.getD ""
  let date := row.publication_date.getD ""
  let authors := row.authors_json
  let link := (pyOr (pyOr row.link row.doi_url) row.pubmed_url).getD ""
  if pyStrip abstract_en = "" then (none, zero_tokens, some "missing_abstract")
  else
    let enRes := summarize_abstract_en oA abstract_en
    let total1 := add_tokens zero_tokens enRes.2.1
    if notTruthyStr enRes.1 then (none, total1, some (orStr enRes.2.2 "en_failed"))
    else
      let summary_en := enRes.1.getD ""
      let ruRes := translate_summary_ru oB title_en summary_en
      let total2 := add_tokens total1 ruRes.2.1
      match ruRes.1 with
      | none => (none, total2, some (orStr ruRes.2.2 "ru_failed"))
      | some (ru_title, ru_summary) =>
        (some (ru_title, summary_en, ru_summary,
          make_telegram_html ru_title journal date authors ru_summary link), total2, none)

/-- Aggregate stats dict returned by `run_pipeline` (`fail_reasons` is the
dict in insertion order; elapsed wall-clock time is not modelled). -/
structure PipelineStats where
  fetched : Nat
  fetched_total : Nat
  skipped_existing : Nat
  pending : Nat
  summarized : Nat
  failed : Nat
  tokens_input : Nat
  tokens_output : Nat
  tokens_total : Nat
  fail_reasons : List (String × Nat)
  elapsed_sec : Nat
deriving Repr, DecidableEq

/-- `fail_reasons[key] = fail_reasons.get(key, 0) + 1`. -/
def bumpReason (m : List (String × Nat)) (k : String) : List (String × Nat) :=
  if m.any (fun e => e.1 == k) then
    m.map (fun e => if e.1 == k then (e.1, e.2 + 1) else e)
  else m ++ [(k, 1)]

/-- Result of the fetch/dedup/ingest prefix of `run_pipeline`. -/
structure IngestResult where
  db : Db
  fetched_count : Nat
  fetched_total : Nat
  skipped_existing : Nat
  new_pmids : List String
deriving Repr, DecidableEq

/-- The guarded fetch + dedup + upsert prefix of `run_pipeline`; a raised
fetch exception (`none`) degrades to zero fetched, empty new pmids. -/
def pipelineIngest (fetchResult : Option (List FetchedArticle)) (db : Db) (now : String) :
    IngestResult :=
  match fetchResult with
  | none => ⟨db, 0, 0, 0, []⟩
  | some fetched =>
    let fetchedTotal := fetched.length
    let existing := get_existing_pmids db
      ((fetched.filter (fun a => truthy a.pmid)).map (fun a => a.pmid.getD ""))
    let fresh := fetched.filter
      (fun a => truthy a.pmid && !(existing.contains (a.pmid.getD "")))
    let up := upsert_raw_articles db fresh now
    ⟨up.1, up.2, fetchedTotal, fetchedTotal - fresh.length,
      fresh.map (fun a => a.pmid.getD "")⟩

/-- Accumulator of the per-item summarization loop. -/
structure LoopAcc where
  db : Db
  ok : Nat
  failed : Nat
  fail_reasons : List (String × Nat)
  tokens : TokenStats
deriving Repr, DecidableEq

/-- The body of the `for idx, row in enumerate(pending)` loop: summarize one
item, accumulate tokens, then either bump the failure histogram or persist
via one `mark_summarized` call. -/
def pipelineItem (oracles : String → (Nat → CallOutcome) × (Nat → CallOutcome)) (now : String)
    (acc : LoopAcc) (row : ArticleRow) : LoopAcc :=
  let o := oracles row.pmid
  let res := summarize_one o.1 o.2 row
  let tokens := add_tokens acc.tokens res.2.1
  match res.1 with
  | none =>
    { acc with
      failed := acc.failed + 1
      fail_reasons := bumpReason acc.fail_reasons (orStr res.2.2 "unknown")
      tokens := tokens }
  | some (title_ru, summary_en, summary_ru, tg) =>
    { acc with
      db := mark_summarized acc.db row.pmid title_ru summary_en summary_ru tg none now
      ok := acc.ok + 1
      tokens := tokens }

/-- `run_pipeline(days_back, limit)`: the fetch collaborator is the
`fetchResult` argument, client-library availability and the API key are the
first two arguments, and the LLM is the per-pmid pair of stage oracles. -/
def run_pipeline (genaiAvailable : Bool) (apiKey : Option String)
    (fetchResult : Option (List FetchedArticle))
    (oracles : String → (Nat → CallOutcome) × (Nat → CallOutcome))
    (limit : Nat) (db : Db) (now : String) : Db × PipelineStats :=
  let ing := pipelineIngest fetchResult db now
  let pending := get_unsummarized_for_pmids ing.db ing.new_pmids limit
  let pendingCount := pending.length
  if pending.isEmpty then
    (ing.db, ⟨ing.fetched_count, ing.fetched_total, ing.skipped_existing,
      0, 0, 0, 0, 0, 0, [], 0⟩)
  else if !genaiAvailable then
    (ing.db, ⟨ing.fetched_count, ing.fetched_total, ing.skipped_existing,
      pendingCount, 0, pendingCount, 0, 0, 0, [("missing_google_genai", pendingCount)], 0⟩)
  else if !(truthy apiKey) then
    (ing.db, ⟨ing.fetched_count, ing.fetched_total, ing.skipped_existing,
      pendingCount, 0, pendingCount, 0, 0, 0, [("missing_gemini_api_key", pendingCount)], 0⟩)
  else
    let final := pending.foldl (pipelineItem oracles now) ⟨ing.db, 0, 0, [], zero_tokens⟩
    (final.db, ⟨ing.fetched_count, ing.fetched_total, ing.skipped_existing,
      pendingCount, final.ok, final.failed, final.tokens.input, final.tokens.output,
      final.tokens.total, final.fail_reasons, 0⟩)

/-! ## Delivery scheduler (telegram_bot.py) -/

/-- `_run_daily_fetch_if_needed()`: the pipeline result it would observe is
passed in as `stats`; the second component counts pipeline invocations. -/
def run_daily_fetch_if_needed (runs : List FetchRunRow) (target : String)
    (stats : PipelineStats) (now : String) : List FetchRunRow × Nat :=
  if has_fetch_run runs target then (runs, 0)
  else (mark_fetch_run runs target "daily1" stats.fetched now, 1)

/-- Re-evaluating the daily-fetch step once per element of `evals`
(each evaluation with its own would-be pipeline stats and timestamp),
accumulating the total number of pipeline invocations. -/
def run_daily_fetch_many (runs : List FetchRunRow) (target : String)
    (evals : List (PipelineStats × String)) : List FetchRunRow × Nat :=
  evals.foldl (fun acc e =>
    let step := run_daily_fetch_if_needed acc.1 target e.1 e.2
    (step.1, acc.2 + step.2)) (runs, 0)

/-- The fallback message `_send_daily_digest` builds when a row has no
pre-rendered `tg_message_html`. -/
def fallbackMsg (a : ArticleRow) : String :=
  let title := html_escape ((pyOr (pyOr a.title_ru a.title_en) (some "Без названия")).getD "")
  let summary := html_escape ((pyOr a.summary_ru a.summary_en).getD "")
  let link := html_escape ((pyOr (pyOr a.link a.doi_url) a.pubmed_url).getD "")
  let msg := "<b>" ++ title ++ "</b>\n\n" ++ summary
  if link ≠ "" then msg ++ "\n\n<a href=\"" ++ link ++ "\">Открыть статью</a>" else msg

/-- The message sent for one article row. -/
def articleMsg (a : ArticleRow) : String :=
  if truthy a.tg_message_html then a.tg_message_html.getD "" else fallbackMsg a

/-- `_send_daily_digest(api, chat_id, target_date)`: the sent messages as
`(chat, text)` pairs plus the returned per-article send count. -/
def send_daily_digest (db : Db) (chat : Int) (target : String) :
    List (Int × String) × Nat :=
  let articles := get_summarized_by_date db target
  if articles.isEmpty then
    ([(chat, "За " ++ target ++ " нет обработанных статей.")], 0)
  else
    ((chat, "<b>Ежедневная подборка за " ++ target ++ "</b>\nКоличество: " ++
        toString articles.length) :: articles.map (fun a => (chat, articleMsg a)),
      articles.length)

/-- `_run_daily_send_if_needed(api)` over the active-subscriber list:
returns the updated delivery log and every message sent. -/
def run_daily_send_if_needed (db : Db) : List Int → String → List DeliveryRow → String →
    List DeliveryRow × List (Int × String)
  | [], _, log, _ => (log, [])
  | chat :: rest, target, log, now =>
    if was_delivered log chat target then
      run_daily_send_if_needed db rest target log now
    else
      let digest := send_daily_digest db chat target
      let log2 := mark_delivery log chat target digest.2 now
      let recRes := run_daily_send_if_needed db rest target log2 now
      (recRes.1, digest.1 ++ recRes.2)

/-! ## Derived notions used by the verification statements -/

/-- Equality of the summarization-side columns that `upsert_raw_articles`
must never touch. -/
def summEq (a b : ArticleRow) : Prop :=
  a.title_ru = b.title_ru ∧ a.summary_en = b.summary_en ∧ a.abstract_ru = b.abstract_ru ∧
  a.summary_ru = b.summary_ru ∧ a.tg_message_html = b.tg_message_html ∧
  a.summarized_at = b.summarized_at ∧ a.sent_at = b.sent_at

/-- `db'` extends `db` in place: every original row keeps its position, its
primary key and its summarization columns. -/
def frameStep (db db' : Db) : Prop :=
  db.length ≤ db'.length ∧
  ∀ i (h : i < db.length) (h' : i < db'.length),
    (db.get ⟨i, h⟩).pmid = (db'.get ⟨i, h'⟩).pmid ∧
      summEq (db.get ⟨i, h⟩) (db'.get ⟨i, h'⟩)

/-- The store mutations the program performs on the `articles` table. -/
inductive DbOp where
  | upsert (articles : List FetchedArticle) (now : String)
  | summarize (pmid title_ru summary_en summary_ru tg_message_html : String)
      (abstract_ru : Option String) (now : String)
  | sent (pmid : String) (now : String)

/-- Apply one store mutation. -/
def applyOp (db : Db) : DbOp → Db
  | .upsert articles now => (upsert_raw_articles db articles now).1
  | .summarize p t se sr tg ar now => mark_summarized db p t se sr tg ar now
  | .sent p now => mark_sent db p now

/-- Apply a sequence of store mutations. -/
def applyOps (db : Db) (ops : List DbOp) : Db := ops.foldl applyOp db

/-- The all-or-nothing invariant of one article record: the summarization
fields `title_ru, summary_en, summary_ru, tg_message_html, summarized_at`
are either all unset or all set. -/
def allOrNothing (r : ArticleRow) : Prop :=
  (r.title_ru = none ∧ r.summary_en = none ∧ r.summary_ru = none ∧
    r.tg_message_html = none ∧ r.summarized_at = none) ∨
  (r.title_ru ≠ none ∧ r.summary_en ≠ none ∧ r.summary_ru ≠ none ∧
    r.tg_message_html ≠ none ∧ r.summarized_at ≠ none)

/-- Every record of the table satisfies the all-or-nothing invariant. -/
def dbAllOrNothing (db : Db) : Prop := ∀ r ∈ db, allOrNothing r

/-- The delivery-log rows keyed by one `(chat, target_date)` pair. -/
def delivFilter (log : List DeliveryRow) (c : Int) (t : String) : List DeliveryRow :=
  log.filter (fun r => r.chat_id == c && r.target_date == t)

/-- `line` is not a tag line recognized against the requested `keys`. -/
def notRecognized (keys : List String) (l : String) : Bool :=
  match tagSplit l with
  | some p => !(keys.contains p.1)
  | none => true

/-! ### Concrete inputs used by witnesses and counterexamples -/

/-- A long, well-terminated summary body accepted by every validator. -/
def c7Body : String := String.mk (List.replicate 260 'a') ++ "."

/-- A mocked provider: rate-limit error on the first two attempts, then a
valid formatted response reporting 10/20/30 tokens. -/
def c7Oracle : Nat → CallOutcome := fun n =>
  if n < 2 then .exn true "RateLimit"
  else .resp ("EN_SUMMARY:\n" ++ c7Body) "STOP" ⟨10, 20, 30⟩

/-- A store holding one article whose summarization fields are set. -/
def c1Db : Db :=
  [{ pmid := "11", title_en := some "Old title", abstract_en := some "Old abstract",
     title_ru := some "Русское название", summary_en := some "Old summary",
     abstract_ru := none, summary_ru := some "Русское резюме",
     tg_message_html := some "<b>x</b>", summarized_at := some "2024-03-01T00:00:00",
     fetched_at := some "t0" }]

/-- Re-ingesting the same identifier with refreshed English metadata. -/
def c1Arts : List FetchedArticle :=
  [{ pmid := some "11", title := some "New title", abstract := some "New abstract",
     journal := some "NEJM", links_pubmed := some "pm", links_doi := some "doi" }]

/-- A batch of store mutations exercising all three operations. -/
def c2Ops : List DbOp :=
  [.upsert c1Arts "t1",
   .summarize "11" "T" "S" "R" "H" none "t2",
   .sent "11" "t3"]

/-- A fetched batch with one genuinely new article carrying an abstract. -/
def c9Fetch : Option (List FetchedArticle) :=
  some [{ pmid := some "21", title := some "T", abstract := some "An abstract." }]

/-- Stage oracles that always fail fast (never actually consulted). -/
def c9Oracles : String → (Nat → CallOutcome) × (Nat → CallOutcome) :=
  fun _ => (fun _ => .exn false "Boom", fun _ => .exn false "Boom")

/-- A store already holding pmid "31" (its summarization failed earlier:
no summarization fields set, abstract present). -/
def c10Db : Db :=
  [{ pmid := "31", abstract_en := some "Failed earlier.", fetched_at := some "t0" }]

/-- A fetch batch returning the already-known pmid "31" and a new "32". -/
def c10Fetch : Option (List FetchedArticle) :=
  some [{ pmid := some "31", abstract := some "Failed earlier." },
        { pmid := some "32", abstract := some "Fresh abstract." }]

/-- A store with one summarized article published on 2024-03-01. -/
def c4Db : Db :=
  [{ pmid := "41", publication_date := some "2024-03-01", journal := some "NEJM",
     title_en := some "T", abstract_en := some "A", summary_en := some "S",
     title_ru := some "Т", summary_ru := some "Р", tg_message_html := some "<b>m</b>",
     summarized_at := some "2024-03-02T00:00:00" }]

/-- A delivery log where subscriber 1 already received 2024-03-01. -/
def c4Log : List DeliveryRow := [⟨1, "2024-03-01", 1, "t0"⟩]

/-- A fetch-runs table already containing 2024-03-01. -/
def c3Runs : List FetchRunRow := [⟨"2024-03-01", "daily1", 3, "t0"⟩]

/-- A model answer: the EN_SUMMARY tag line followed by one content line. -/
def c6Text : String := "EN_SUMMARY:\nHello world."

/-- The requested keys for the parse round-trip. -/
def c6Keys : List String := ["EN_SUMMARY", "RU_TITLE"]

/-- The lines following the tag line in `c6Text`. -/
def c6Lines : List String := ["Hello world."]

/-- Pipeline stats as reported by a run that failed every item. -/
def c3Stats : PipelineStats := ⟨5, 9, 4, 5, 0, 5, 7, 8, 15, [("en_failed", 5)], 0⟩

/-! ## Helper lemmas -/

theorem add_tokens_zero_left (a : TokenStats) : add_tokens zero_tokens a = a := by
  cases a; simp [add_tokens, zero_tokens]

theorem add_tokens_zero_right (a : TokenStats) : add_tokens a zero_tokens = a := by
  cases a; simp [add_tokens, zero_tokens]

theorem add_tokens_assoc (a b c : TokenStats) :
    add_tokens (add_tokens a b) c = add_tokens a (add_tokens b c) := by
  cases a; cases b; cases c; simp [add_tokens, Nat.add_assoc]

theorem mem_insertLe {α : Type} {le : α → α → Bool} {x y : α} {l : List α} :
    y ∈ insertLe le x l ↔ y = x ∨ y ∈ l := by
  induction l with
  | nil => simp [insertLe]
  | cons a as ih =>
    unfold insertLe
    by_cases h : le a x = true
    · rw [if_pos h]
      simp only [List.mem_cons, ih]
      tauto
    · rw [if_neg h]
      simp [List.mem_cons]

theorem mem_isortBy {α : Type} {le : α → α → Bool} {l : List α} {x : α} :
    x ∈ isortBy le l ↔ x ∈ l := by
  induction l with
  | nil => simp [isortBy]
  | cons a as ih =>
    show x ∈ insertLe le a (isortBy le as) ↔ _
    rw [mem_insertLe]
    simp [ih]

theorem length_insertLe {α : Type} (le : α → α → Bool) (x : α) (l : List α) :
    (insertLe le x l).length = l.length + 1 := by
  induction l with
  | nil => simp [insertLe]
  | cons a as ih =>
    unfold insertLe
    by_cases h : le a x = true <;> simp [h, ih, Nat.add_comm, Nat.add_assoc]

theorem length_isortBy {α : Type} (le : α → α → Bool) (l : List α) :
    (isortBy le l).length = l.length := by
  induction l with
  | nil => rfl
  | cons a as ih =>
    show (insertLe le a (isortBy le as)).length = _
    rw [length_insertLe, ih, List.length_cons]

theorem mem_pyUniqueSorted {l : List String} {p : String} :
    p ∈ pyUniqueSorted l ↔ p ∈ l ∧ p ≠ "" := by
  unfold pyUniqueSorted
  rw [mem_isortBy, List.mem_dedup, List.mem_filter]
  simp

/-! ## C5: the completion guard -/

/-- C5 (amended): the completion guard decides by the first matching rule —
empty text is truncated; a finish reason mentioning a MAX_TOKENS length cut
is truncated; right-trimmed text ending in the three-character ASCII
ellipsis "..." is truncated; text ending in a comma, semicolon or colon is
truncated; any other text is complete.  In particular "End of report." is
not flagged, and the empty string always is.  (The single-character
ellipsis "…" is NOT matched by the ellipsis rule; see the counterexample.) -/
theorem C5_completion_guard_policy (text finish_reason : String) :
    (is_incomplete_text text finish_reason = true ↔
      (text = "" ∨
        (finish_reason ≠ "" ∧ upperContains finish_reason "MAX_TOKENS" = true) ∨
        strEndsWith (pyRstrip text) "..." = true ∨
        endsInPunct (pyRstrip text) = true)) ∧
    is_incomplete_text "" finish_reason = true ∧
    is_incomplete_text "End of report." "STOP" = false := by
  refine ⟨?_, by simp [is_incomplete_text], by decide⟩
  unfold is_incomplete_text
  by_cases h0 : text = ""
  · simp [h0]
  · rw [if_neg h0]
    by_cases h1 : (finish_reason ≠ "" && upperContains finish_reason "MAX_TOKENS") = true
    · rw [if_pos h1]
      simp only [Bool.and_eq_true, decide_eq_true_eq, ne_eq] at h1
      simp [h0, h1]
    · rw [if_neg h1]
      simp only [Bool.and_eq_true, decide_eq_true_eq, ne_eq] at h1
      by_cases h2 : strEndsWith (pyRstrip text) "..." = true
      · simp [h2, h0]
      · rw [if_neg h2]
        by_cases h3 : endsInPunct (pyRstrip text) = true
        · simp [h3, h0]
        · rw [if_neg h3]
          simp only [Bool.false_eq_true, false_iff, not_or]
          exact ⟨h0, by simpa using h1, h2, h3⟩

/-- C5 counterexample: the claim says text ending in the single character
"…" is truncated, but the guard only matches the ASCII "..." — on the
one-character input "…" (which is its own right-trim and ends in the
ellipsis character) the guard reports the text complete. -/
theorem C5_counterexample :
    is_incomplete_text "…" "" = false ∧ pyRstrip "…" = "…" := by
  constructor
  · rfl
  · rfl

/-! ## C8: missing abstract short-circuits before any model call -/

/-- C8: when the row's English abstract is missing or whitespace-only,
`summarize_one` fails with reason exactly "missing_abstract" and zero
accumulated tokens, and the result does not depend on the model oracles at
all (no model call is made). -/
theorem C8_missing_abstract (oA oB : Nat → CallOutcome) (row : ArticleRow)
    (h : pyStrip (row.abstract_en.getD "") = "") :
    summarize_one oA oB row = (none, zero_tokens, some "missing_abstract") ∧
    ∀ oA2 oB2 : Nat → CallOutcome, summarize_one oA2 oB2 row = summarize_one oA oB row := by
  constructor
  · unfold summarize_one
    rw [if_pos h]
  · intro oA2 oB2
    unfold summarize_one
    rw [if_pos h, if_pos h]

/-- C8 witness: a row with no abstract at all. -/
theorem C8_missing_abstract_witness :
    pyStrip ((({ pmid := "81" } : ArticleRow)).abstract_en.getD "") = "" ∧
    summarize_one (fun _ => .exn true "RL") (fun _ => .exn true "RL") { pmid := "81" } =
      (none, zero_tokens, some "missing_abstract") :=
  ⟨by decide, (C8_missing_abstract (fun _ => .exn true "RL") (fun _ => .exn true "RL")
    { pmid := "81" } (by decide)).1⟩

/-! ## C3: the daily-fetch step runs at most once per target date -/

theorem has_fetch_run_mark (runs : List FetchRunRow) (target mode : String) (count : Nat)
    (now : String) :
    has_fetch_run (mark_fetch_run runs target mode count now) target = true := by
  unfold mark_fetch_run
  by_cases h : runs.any (fun r => r.target_date == target) = true
  · rw [if_pos h]
    simp only [has_fetch_run, List.any_map, List.any_eq_true] at h ⊢
    obtain ⟨r, hr, hb⟩ := h
    refine ⟨r, hr, ?_⟩
    simp only [Function.comp]
    rw [hb]
    simpa using hb
  · rw [if_neg h]
    simp [has_fetch_run]

theorem fetch_many_stops (target : String) (evals : List (PipelineStats × String)) :
    ∀ (runs : List FetchRunRow) (c : Nat), has_fetch_run runs target = true →
      evals.foldl (fun acc e =>
        let step := run_daily_fetch_if_needed acc.1 target e.1 e.2
        (step.1, acc.2 + step.2)) (runs, c) = (runs, c) := by
  induction evals with
  | nil => intro runs c _; rfl
  | cons e rest ih =>
    intro runs c h
    simp only [List.foldl_cons]
    have hstep : run_daily_fetch_if_needed runs target e.1 e.2 = (runs, 0) := by
      unfold run_daily_fetch_if_needed
      rw [if_pos h]
    rw [hstep]
    simpa using ih runs c h

/-- C3: if a fetch-run record exists for the target date the daily-fetch
step performs zero pipeline (fetch/summarize) invocations and leaves the
fetch-run table untouched; otherwise it invokes the pipeline exactly once
and records the date — with the reported fetched count, regardless of the
stats' summarized/failed numbers — and re-evaluating the step any number of
times invokes the pipeline at most once in total. -/
theorem C3_daily_fetch_at_most_once :
    (∀ (runs : List FetchRunRow) (target : String) (stats : PipelineStats) (now : String),
      has_fetch_run runs target = true →
      run_daily_fetch_if_needed runs target stats now = (runs, 0)) ∧
    (∀ (runs : List FetchRunRow) (target : String) (stats : PipelineStats) (now : String),
      has_fetch_run runs target = false →
      (run_daily_fetch_if_needed runs target stats now).2 = 1 ∧
      (run_daily_fetch_if_needed runs target stats now).1 =
        mark_fetch_run runs target "daily1" stats.fetched now ∧
      has_fetch_run (run_daily_fetch_if_needed runs target stats now).1 target = true ∧
      (⟨target, "daily1", stats.fetched, now⟩ : FetchRunRow) ∈
        (run_daily_fetch_if_needed runs target stats now).1) ∧
    (∀ (runs : List FetchRunRow) (target : String) (evals : List (PipelineStats × String)),
      (run_daily_fetch_many runs target evals).2 ≤ 1) := by
  refine ⟨?_, ?_, ?_⟩
  · intro runs target stats now h
    unfold run_daily_fetch_if_needed
    rw [if_pos h]
  · intro runs target stats now h
    have hstep : run_daily_fetch_if_needed runs target stats now =
        (mark_fetch_run runs target "daily1" stats.fetched now, 1) := by
      unfold run_daily_fetch_if_needed
      rw [if_neg (by simp [h])]
    refine ⟨by rw [hstep], by rw [hstep], ?_, ?_⟩
    · rw [hstep]
      exact has_fetch_run_mark runs target "daily1" stats.fetched now
    · rw [hstep]
      unfold mark_fetch_run
      rw [if_neg (by simpa [has_fetch_run] using h)]
      simp
  · intro runs target evals
    unfold run_daily_fetch_many
    cases evals with
    | nil => simp
    | cons e rest =>
      simp only [List.foldl_cons]
      by_cases h : has_fetch_run runs target = true
      · have hstep : run_daily_fetch_if_needed runs target e.1 e.2 = (runs, 0) := by
          unfold run_daily_fetch_if_needed
          rw [if_pos h]
        rw [hstep]
        have := fetch_many_stops target rest runs 0 h
        simp only at this
        rw [show ((runs, 0 + 0) : List FetchRunRow × Nat) = (runs, 0) by rfl, this]
        simp
      · have hstep : run_daily_fetch_if_needed runs target e.1 e.2 =
            (mark_fetch_run runs target "daily1" e.1.fetched e.2, 1) := by
          unfold run_daily_fetch_if_needed
          rw [if_neg (by simp [h])]
        rw [hstep]
        have hmarked := has_fetch_run_mark runs target "daily1" e.1.fetched e.2
        have := fetch_many_stops target rest
          (mark_fetch_run runs target "daily1" e.1.fetched e.2) (0 + 1) hmarked
        simp only at this
        rw [this]

/-- C3 witness: with a fetch-run record already present for 2024-03-01, the
step is a no-op with zero pipeline invocations. -/
theorem C3_daily_fetch_witness :
    has_fetch_run c3Runs "2024-03-01" = true ∧
    run_daily_fetch_if_needed c3Runs "2024-03-01" c3Stats "t9" = (c3Runs, 0) :=
  ⟨by decide, C3_daily_fetch_at_most_once.1 c3Runs "2024-03-01" c3Stats "t9" (by decide)⟩

/-! ## C7: token accounting across retry attempts -/

theorem sumReportedFrom_one_add (oracle : Nat → CallOutcome) (start n : Nat) :
    sumReportedFrom oracle start (1 + n) =
      add_tokens (tokensReported (oracle start)) (sumReportedFrom oracle (start + 1) n) := by
  rw [Nat.add_comm]
  rfl

theorem sumReportedFrom_one (oracle : Nat → CallOutcome) (start : Nat) :
    sumReportedFrom oracle start 1 = tokensReported (oracle start) := by
  show add_tokens (tokensReported (oracle start)) zero_tokens = _
  rw [add_tokens_zero_right]

theorem en_loop_tokens (oracle : Nat → CallOutcome) :
    ∀ (fuel attempt : Nat) (prompt : String) (acc : TokenStats) (lt lf : String),
      (en_loop oracle fuel attempt prompt acc lt lf).2.1 =
        add_tokens acc (sumReportedFrom oracle attempt (en_attempts_aux oracle fuel attempt)) := by
  intro fuel
  induction fuel with
  | zero =>
    intro attempt prompt acc lt lf
    simp [en_loop, en_attempts_aux, sumReportedFrom, add_tokens_zero_right]
  | succ fuel ih =>
    intro attempt prompt acc lt lf
    cases ho : oracle attempt with
    | exn rl name =>
      cases rl with
      | true =>
        simp only [en_loop, en_attempts_aux, call_gemini, ho]
        rw [ih, sumReportedFrom_one_add, ho]
        simp [tokensReported, add_tokens_zero_left]
      | false =>
        simp only [en_loop, en_attempts_aux, call_gemini, ho]
        rw [sumReportedFrom_one, ho]
        simp [tokensReported, add_tokens_zero_right]
    | resp t fr tk =>
      simp only [en_loop, en_attempts_aux, call_gemini, ho]
      cases hs : sectionOf (pyStrip t) ["EN_SUMMARY"] "EN_SUMMARY" with
      | none =>
        simp only [hs]
        rw [ih, sumReportedFrom_one_add, ho]
        simp [tokensReported, add_tokens_assoc]
      | some s =>
        simp only [hs]
        by_cases h1 : s = ""
        · rw [if_pos h1, if_pos h1, ih, sumReportedFrom_one_add, ho]
          simp [tokensReported, add_tokens_assoc]
        · rw [if_neg h1, if_neg h1]
          by_cases h2 : is_incomplete_text s fr = true
          · rw [if_pos h2, if_pos h2, ih, sumReportedFrom_one_add, ho]
            simp [tokensReported, add_tokens_assoc]
          · rw [if_neg h2, if_neg h2]
            by_cases h3 : s.length < 200
            · rw [if_pos h3, if_pos h3, ih, sumReportedFrom_one_add, ho]
              simp [tokensReported, add_tokens_assoc]
            · rw [if_neg h3, if_neg h3, sumReportedFrom_one, ho]
              simp [tokensReported]

theorem ru_loop_tokens (oracle : Nat → CallOutcome) :
    ∀ (fuel attempt : Nat) (prompt : String) (acc : TokenStats) (lt lf : String),
      (ru_loop oracle fuel attempt prompt acc lt lf).2.1 =
        add_tokens acc (sumReportedFrom oracle attempt (ru_attempts_aux oracle fuel attempt)) := by
  intro fuel
  induction fuel with
  | zero =>
    intro attempt prompt acc lt lf
    simp [ru_loop, ru_attempts_aux, sumReportedFrom, add_tokens_zero_right]
  | succ fuel ih =>
    intro attempt prompt acc lt lf
    cases ho : oracle attempt with
    | exn rl name =>
      cases rl with
      | true =>
        simp only [ru_loop, ru_attempts_aux, call_gemini, ho]
        rw [ih, sumReportedFrom_one_add, ho]
        simp [tokensReported, add_tokens_zero_left]
      | false =>
        simp only [ru_loop, ru_attempts_aux, call_gemini, ho]
        rw [sumReportedFrom_one, ho]
        simp [tokensReported, add_tokens_zero_right]
    | resp t fr tk =>
      simp only [ru_loop, ru_attempts_aux, call_gemini, ho]
      by_cases h1 : (notTruthyStr (sectionOf (pyStrip t) ["RU_TITLE", "RU_SUMMARY"] "RU_TITLE") ||
          notTruthyStr (sectionOf (pyStrip t) ["RU_TITLE", "RU_SUMMARY"] "RU_SUMMARY")) = true
      · rw [if_pos h1, if_pos h1, ih, sumReportedFrom_one_add, ho]
        simp [tokensReported, add_tokens_assoc]
      · rw [if_neg h1, if_neg h1]
        by_cases h2 : is_incomplete_text
            ((sectionOf (pyStrip t) ["RU_TITLE", "RU_SUMMARY"] "RU_SUMMARY").getD "") fr = true
        · rw [if_pos h2, if_pos h2, ih, sumReportedFrom_one_add, ho]
          simp [tokensReported, add_tokens_assoc]
        · rw [if_neg h2, if_neg h2, sumReportedFrom_one, ho]
          simp [tokensReported]

set_option maxRecDepth 100000 in
/-- C7: both retry controllers return, in success and in failure alike,
token counters equal to the sum over all attempts made of the usage
reported for each attempt (an attempt that raised reports zero usage); and
on the mocked provider that rate-limits the first two attempts and answers
validly on the third, `summarize_abstract_en` succeeds after exactly 3
attempts with totals summed across all three. -/
theorem C7_token_accounting :
    (∀ (oracle : Nat → CallOutcome) (abstract_en : String),
      (summarize_abstract_en oracle abstract_en).2.1 =
        sumReportedFrom oracle 0 (en_attempts oracle)) ∧
    (∀ (oracle : Nat → CallOutcome) (title_en summary_en : String),
      (translate_summary_ru oracle title_en summary_en).2.1 =
        sumReportedFrom oracle 0 (ru_attempts oracle)) ∧
    (summarize_abstract_en c7Oracle "Some abstract." =
      (some c7Body, sumReportedFrom c7Oracle 0 3, none) ∧
     en_attempts c7Oracle = 3 ∧
     sumReportedFrom c7Oracle 0 3 = ⟨10, 20, 30⟩) := by
  refine ⟨?_, ?_, ?_, ?_, ?_⟩
  · intro oracle abstract_en
    unfold summarize_abstract_en en_attempts
    rw [en_loop_tokens, add_tokens_zero_left]
  · intro oracle title_en summary_en
    unfold translate_summary_ru ru_attempts
    rw [ru_loop_tokens, add_tokens_zero_left]
  · decide
  · decide
  · decide

/-! ## C1: upsert never duplicates a pmid and never touches summarization fields -/

theorem summEq_refl (a : ArticleRow) : summEq a a := by
  simp [summEq]

theorem summEq_trans {a b c : ArticleRow} (h1 : summEq a b) (h2 : summEq b c) : summEq a c := by
  obtain ⟨x1, x2, x3, x4, x5, x6, x7⟩ := h1
  obtain ⟨y1, y2, y3, y4, y5, y6, y7⟩ := h2
  exact ⟨x1.trans y1, x2.trans y2, x3.trans y3, x4.trans y4, x5.trans y5,
    x6.trans y6, x7.trans y7⟩

theorem frameStep_refl (db : Db) : frameStep db db :=
  ⟨le_refl _, fun _ _ _ => ⟨rfl, summEq_refl _⟩⟩

theorem frameStep_trans {a b c : Db} (h1 : frameStep a b) (h2 : frameStep b c) :
    frameStep a c := by
  obtain ⟨hl1, hp1⟩ := h1
  obtain ⟨hl2, hp2⟩ := h2
  refine ⟨le_trans hl1 hl2, fun i h h2 => ?_⟩
  have hib : i < b.length := lt_of_lt_of_le h hl1
  obtain ⟨e1, s1⟩ := hp1 i h hib
  obtain ⟨e2, s2⟩ := hp2 i hib h2
  exact ⟨e1.trans e2, summEq_trans s1 s2⟩

theorem conflictUpdate_pmid (x r : ArticleRow) : (conflictUpdate x r).pmid = x.pmid := rfl

theorem conflictUpdate_summEq (x r : ArticleRow) : summEq x (conflictUpdate x r) := by
  simp [summEq, conflictUpdate]

theorem frameStep_upsertRow (db : Db) (r : ArticleRow) : frameStep db (upsertRow db r) := by
  unfold upsertRow
  by_cases h : db.any (fun x => x.pmid == r.pmid) = true
  · rw [if_pos h]
    refine ⟨by simp, fun i hi hi2 => ?_⟩
    simp only [List.get_map]
    by_cases hx : ((db.get ⟨i, hi⟩).pmid == r.pmid) = true
    · rw [if_pos hx]
      exact ⟨(conflictUpdate_pmid _ _).symm, conflictUpdate_summEq _ _⟩
    · rw [if_neg hx]
      exact ⟨rfl, summEq_refl _⟩
  · rw [if_neg h]
    refine ⟨by simp, fun i hi hi2 => ?_⟩
    rw [List.get_append i hi]
    exact ⟨rfl, summEq_refl _⟩

theorem frameStep_foldl (rows : List ArticleRow) :
    ∀ db : Db, frameStep db (rows.foldl upsertRow db) := by
  induction rows with
  | nil => intro db; exact frameStep_refl db
  | cons r rest ih =>
    intro db
    exact frameStep_trans (frameStep_upsertRow db r) (ih (upsertRow db r))

theorem upsertRow_pmids_nodup (db : Db) (r : ArticleRow)
    (h : (db.map (fun x => x.pmid)).Nodup) :
    ((upsertRow db r).map (fun x => x.pmid)).Nodup := by
  unfold upsertRow
  by_cases hc : db.any (fun x => x.pmid == r.pmid) = true
  · rw [if_pos hc]
    have heq : (db.map (fun x => if x.pmid == r.pmid then conflictUpdate x r else x)).map
        (fun x => x.pmid) = db.map (fun x => x.pmid) := by
      rw [List.map_map]
      apply List.map_congr_left
      intro x _
      by_cases hx : (x.pmid == r.pmid) = true
      · simp [Function.comp, hx, conflictUpdate_pmid]
      · simp [Function.comp, hx]
    rw [heq]
    exact h
  · rw [if_neg hc]
    rw [List.map_append]
    simp only [List.any_eq_true, not_exists, not_and] at hc
    push_neg at hc
    rw [show ([r].map (fun x => x.pmid)) = [r.pmid] by rfl]
    rw [List.nodup_append]
    refine ⟨h, List.nodup_singleton _, ?_⟩
    intro p hp
    simp only [List.mem_map] at hp
    obtain ⟨x, hx, hpx⟩ := hp
    have := hc x hx
    simp only [List.mem_singleton]
    intro hcontra
    apply this
    rw [hpx, hcontra]
    simp

theorem foldl_pmids_nodup (rows : List ArticleRow) :
    ∀ db : Db, (db.map (fun x => x.pmid)).Nodup →
      ((rows.foldl upsertRow db).map (fun x => x.pmid)).Nodup := by
  induction rows with
  | nil => intro db h; exact h
  | cons r rest ih =>
    intro db h
    exact ih (upsertRow db r) (upsertRow_pmids_nodup db r h)

/-- C1: for any store and any batch of fetched payloads, the upsert leaves
every existing row's primary key and all its summarization columns
(`title_ru, summary_en, abstract_ru, summary_ru, tg_message_html,
summarized_at, sent_at`) unchanged (it writes only the English/raw-metadata
columns), and it never creates a second row for an identifier: pmid
uniqueness is preserved, so ingesting the same payload twice cannot
duplicate a row or clobber summarization fields. -/
theorem C1_upsert_frame (db : Db) (articles : List FetchedArticle) (now : String) :
    frameStep db (upsert_raw_articles db articles now).1 ∧
    ((db.map (fun r => r.pmid)).Nodup →
      (((upsert_raw_articles db articles now).1).map (fun r => r.pmid)).Nodup) := by
  constructor
  · exact frameStep_foldl _ db
  · intro h
    exact foldl_pmids_nodup _ db h

/-- C1 witness: re-ingesting pmid "11" keeps the store duplicate-free (and
by evaluation the summarized row keeps its Russian fields while the English
title is refreshed). -/
theorem C1_upsert_frame_witness :
    (c1Db.map (fun r => r.pmid)).Nodup ∧
    (((upsert_raw_articles c1Db c1Arts "t2").1).map (fun r => r.pmid)).Nodup :=
  ⟨by decide, (C1_upsert_frame c1Db c1Arts "t2").2 (by decide)⟩

/-! ## C2: the all-or-nothing invariant over summarization fields -/

theorem allOrNothing_conflictUpdate (x r : ArticleRow) (h : allOrNothing x) :
    allOrNothing (conflictUpdate x r) := by
  simpa [allOrNothing, conflictUpdate] using h

theorem allOrNothing_rowOfFetched (a : FetchedArticle) (now : String) :
    allOrNothing (rowOfFetched a now) := by
  left
  simp [rowOfFetched]

theorem dbAllOrNothing_upsertRow (db : Db) (r : ArticleRow)
    (h : dbAllOrNothing db) (hr : allOrNothing r) : dbAllOrNothing (upsertRow db r) := by
  unfold upsertRow
  by_cases hc : db.any (fun x => x.pmid == r.pmid) = true
  · rw [if_pos hc]
    intro x hx
    rw [List.mem_map] at hx
    obtain ⟨y, hy, rfl⟩ := hx
    by_cases hp : (y.pmid == r.pmid) = true
    · rw [if_pos hp]
      exact allOrNothing_conflictUpdate y r (h y hy)
    · rw [if_neg hp]
      exact h y hy
  · rw [if_neg hc]
    intro x hx
    rcases List.mem_append.mp hx with h1 | h1
    · exact h x h1
    · rw [List.mem_singleton] at h1
      subst h1
      exact hr

theorem dbAllOrNothing_foldl (rows : List ArticleRow) (hrows : ∀ r ∈ rows, allOrNothing r) :
    ∀ db : Db, dbAllOrNothing db → dbAllOrNothing (rows.foldl upsertRow db) := by
  induction rows with
  | nil => intro db h; exact h
  | cons r rest ih =>
    intro db h
    exact ih (fun x hx => hrows x (by simp [hx]))
      (upsertRow db r) (dbAllOrNothing_upsertRow db r h (hrows r (by simp)))

theorem dbAllOrNothing_upsert (db : Db) (articles : List FetchedArticle) (now : String)
    (h : dbAllOrNothing db) : dbAllOrNothing (upsert_raw_articles db articles now).1 := by
  unfold upsert_raw_articles
  apply dbAllOrNothing_foldl
  · intro r hr
    rw [List.mem_map] at hr
    obtain ⟨a, _, rfl⟩ := hr
    exact allOrNothing_rowOfFetched a now
  · exact h

theorem dbAllOrNothing_mark_summarized (db : Db)
    (pmid title_ru summary_en summary_ru tg : String) (ar : Option String) (now : String)
    (h : dbAllOrNothing db) :
    dbAllOrNothing (mark_summarized db pmid title_ru summary_en summary_ru tg ar now) := by
  unfold mark_summarized
  intro x hx
  rw [List.mem_map] at hx
  obtain ⟨y, hy, rfl⟩ := hx
  by_cases hp : (y.pmid == pmid) = true
  · rw [if_pos hp]
    right
    simp
  · rw [if_neg hp]
    exact h y hy

theorem dbAllOrNothing_mark_sent (db : Db) (pmid now : String) (h : dbAllOrNothing db) :
    dbAllOrNothing (mark_sent db pmid now) := by
  unfold mark_sent
  intro x hx
  rw [List.mem_map] at hx
  obtain ⟨y, hy, rfl⟩ := hx
  by_cases hp : (y.pmid == pmid) = true
  · rw [if_pos hp]
    have := h y hy
    simpa [allOrNothing] using this
  · rw [if_neg hp]
    exact h y hy

theorem dbAllOrNothing_applyOp (db : Db) (op : DbOp) (h : dbAllOrNothing db) :
    dbAllOrNothing (applyOp db op) := by
  cases op with
  | upsert articles now => exact dbAllOrNothing_upsert db articles now h
  | summarize p t se sr tg ar now => exact dbAllOrNothing_mark_summarized db p t se sr tg ar now h
  | sent p now => exact dbAllOrNothing_mark_sent db p now h

/-- C2: every reachable store satisfies the all-or-nothing invariant — all
three mutations (ingest upsert, the single atomic `mark_summarized` update,
`mark_sent`) preserve it; moreover the per-item pipeline step persists
nothing when `summarize_one` failed (either stage), and on success its only
store effect is the one atomic `mark_summarized` update setting all
summarization fields together. -/
theorem C2_all_or_nothing :
    (∀ (db : Db) (ops : List DbOp), dbAllOrNothing db → dbAllOrNothing (applyOps db ops)) ∧
    (∀ (oracles : String → (Nat → CallOutcome) × (Nat → CallOutcome)) (now : String)
        (acc : LoopAcc) (row : ArticleRow),
      (summarize_one (oracles row.pmid).1 (oracles row.pmid).2 row).1 = none →
      (pipelineItem oracles now acc row).db = acc.db) ∧
    (∀ (oracles : String → (Nat → CallOutcome) × (Nat → CallOutcome)) (now : String)
        (acc : LoopAcc) (row : ArticleRow) (t se sr tg : String),
      (summarize_one (oracles row.pmid).1 (oracles row.pmid).2 row).1 = some (t, se, sr, tg) →
      (pipelineItem oracles now acc row).db =
        mark_summarized acc.db row.pmid t se sr tg none now) := by
  refine ⟨?_, ?_, ?_⟩
  · intro db ops
    induction ops generalizing db with
    | nil => intro h; exact h
    | cons op rest ih =>
      intro h
      exact ih (applyOp db op) (dbAllOrNothing_applyOp db op h)
  · intro oracles now acc row h
    simp only [pipelineItem]
    rw [h]
  · intro oracles now acc row t se sr tg h
    simp only [pipelineItem]
    rw [h]

/-- C2 witness: starting from the empty store, a full
ingest → summarize → mark-sent history keeps the invariant. -/
theorem C2_all_or_nothing_witness :
    dbAllOrNothing ([] : Db) ∧ dbAllOrNothing (applyOps [] c2Ops) :=
  ⟨by simp [dbAllOrNothing], C2_all_or_nothing.1 [] c2Ops (by simp [dbAllOrNothing])⟩

/-! ## C9 and C10: pipeline short-circuits and pending scoping -/

theorem mem_get_unsummarized {db : Db} {pmids : List String} {limit : Nat} {r : ArticleRow}
    (h : r ∈ get_unsummarized_for_pmids db pmids limit) :
    r ∈ db ∧ r.pmid ∈ pmids ∧ r.pmid ≠ "" := by
  unfold get_unsummarized_for_pmids at h
  by_cases h1 : pmids.isEmpty = true
  · rw [if_pos h1] at h
    cases h
  · rw [if_neg h1] at h
    by_cases h2 : (pyUniqueSorted pmids).isEmpty = true
    · rw [if_pos h2] at h
      cases h
    · rw [if_neg h2] at h
      have hmem : r ∈ sortByFetchedDesc (db.filter (pendingPred (pyUniqueSorted pmids))) :=
        List.take_subset limit _ h
      rw [sortByFetchedDesc, mem_isortBy] at hmem
      obtain ⟨hdb, hpred⟩ := List.mem_filter.mp hmem
      unfold pendingPred at hpred
      simp only [Bool.and_eq_true] at hpred
      have hin : r.pmid ∈ pyUniqueSorted pmids := by
        simpa using hpred.2
      rw [mem_pyUniqueSorted] at hin
      exact ⟨hdb, hin.1, hin.2⟩

/-- C10: the pending selection of every `run_pipeline` invocation is scoped
to the identifiers newly inserted in that same invocation — every pending
row's pmid is among the run's new pmids; a failed fetch or an empty new-pmid
set yields an empty pending list; and an article already present in the
store before the run is never selected as pending, so an article whose
summarization failed in an earlier run is never retried by a later run. -/
theorem C10_pending_scoped (fetchResult : Option (List FetchedArticle)) (db : Db)
    (now : String) (limit : Nat) :
    (∀ r ∈ get_unsummarized_for_pmids (pipelineIngest fetchResult db now).db
        (pipelineIngest fetchResult db now).new_pmids limit,
      r.pmid ∈ (pipelineIngest fetchResult db now).new_pmids) ∧
    (fetchResult = none →
      get_unsummarized_for_pmids (pipelineIngest fetchResult db now).db
        (pipelineIngest fetchResult db now).new_pmids limit = []) ∧
    ((pipelineIngest fetchResult db now).new_pmids = [] →
      get_unsummarized_for_pmids (pipelineIngest fetchResult db now).db
        (pipelineIngest fetchResult db now).new_pmids limit = []) ∧
    (∀ p : String, (∃ r0 ∈ db, r0.pmid = p) →
      ∀ r ∈ get_unsummarized_for_pmids (pipelineIngest fetchResult db now).db
          (pipelineIngest fetchResult db now).new_pmids limit,
        r.pmid ≠ p) := by
  refine ⟨?_, ?_, ?_, ?_⟩
  · intro r hr
    exact (mem_get_unsummarized hr).2.1
  · intro hf
    subst hf
    rfl
  · intro hnew
    unfold get_unsummarized_for_pmids
    rw [hnew]
    rfl
  · intro p hp r hr hcontra
    obtain ⟨r0, hr0, hr0p⟩ := hp
    have hmem := (mem_get_unsummarized hr).2.1
    rw [hcontra] at hmem
    cases hfetch : fetchResult with
    | none =>
      rw [hfetch] at hmem
      cases hmem
    | some fetched =>
      rw [hfetch] at hmem
      simp only [pipelineIngest, List.mem_map] at hmem
      obtain ⟨a, ha, hap⟩ := hmem
      obtain ⟨hafetched, hacond⟩ := List.mem_filter.mp ha
      simp only [Bool.and_eq_true, Bool.not_eq_true] at hacond
      obtain ⟨htru, hnotin⟩ := hacond
      have hpne : p ≠ "" := by
        cases hpm : a.pmid with
        | none => rw [hpm] at htru; cases htru
        | some s =>
          rw [hpm] at htru hap
          simp only [truthy, decide_eq_true_eq] at htru
          simpa [hap.symm] using htru
      have hcand : p ∈ (fetched.filter (fun a => truthy a.pmid)).map
          (fun a => a.pmid.getD "") := by
        rw [List.mem_map]
        exact ⟨a, List.mem_filter.mpr ⟨hafetched, htru⟩, hap⟩
      have hex : p ∈ get_existing_pmids db
          ((fetched.filter (fun a => truthy a.pmid)).map (fun a => a.pmid.getD "")) := by
        unfold get_existing_pmids
        rw [List.mem_filter]
        refine ⟨mem_pyUniqueSorted.mpr ⟨hcand, hpne⟩, ?_⟩
        rw [List.any_eq_true]
        exact ⟨r0, hr0, by simp [hr0p]⟩
      rw [← hap] at hex
      have : (get_existing_pmids db
          ((fetched.filter (fun a => truthy a.pmid)).map (fun a => a.pmid.getD ""))).contains
          (a.pmid.getD "") = true := by
        simpa using hex
      rw [this] at hnotin
      cases hnotin

/-- C10 witness: with pmid "31" already stored, a re-fetch containing "31"
and a fresh "32" never selects "31" as pending. -/
theorem C10_pending_scoped_witness :
    (∃ r0 ∈ c10Db, r0.pmid = "31") ∧
    ∀ r ∈ get_unsummarized_for_pmids (pipelineIngest c10Fetch c10Db "t1").db
        (pipelineIngest c10Fetch c10Db "t1").new_pmids 200,
      r.pmid ≠ "31" := by
  refine ⟨⟨{ pmid := "31", abstract_en := some "Failed earlier.", fetched_at := some "t0" },
    by decide, rfl⟩, ?_⟩
  exact (C10_pending_scoped c10Fetch c10Db "t1" 200).2.2.2 "31"
    ⟨{ pmid := "31", abstract_en := some "Failed earlier.", fetched_at := some "t0" },
      by decide, rfl⟩

/-- C9: when at least one item is pending, a missing client library (first
conjunct) or a missing/empty API key (second conjunct) short-circuits the
whole run: the result is the post-ingest store with zero summarized, failed
equal to the pending count, zero token totals, and a failure histogram
mapping the single specific reason tag to the pending count — for every
choice of LLM oracle, i.e. with zero model calls. -/
theorem C9_short_circuit (fetchResult : Option (List FetchedArticle)) (limit : Nat)
    (db : Db) (now : String)
    (hpend : get_unsummarized_for_pmids (pipelineIngest fetchResult db now).db
        (pipelineIngest fetchResult db now).new_pmids limit ≠ []) :
    (∀ (apiKey : Option String)
        (oracles : String → (Nat → CallOutcome) × (Nat → CallOutcome)),
      run_pipeline false apiKey fetchResult oracles limit db now =
        ((pipelineIngest fetchResult db now).db,
          ⟨(pipelineIngest fetchResult db now).fetched_count,
            (pipelineIngest fetchResult db now).fetched_total,
            (pipelineIngest fetchResult db now).skipped_existing,
            (get_unsummarized_for_pmids (pipelineIngest fetchResult db now).db
              (pipelineIngest fetchResult db now).new_pmids limit).length,
            0,
            (get_unsummarized_for_pmids (pipelineIngest fetchResult db now).db
              (pipelineIngest fetchResult db now).new_pmids limit).length,
            0, 0, 0,
            [("missing_google_genai",
              (get_unsummarized_for_pmids (pipelineIngest fetchResult db now).db
                (pipelineIngest fetchResult db now).new_pmids limit).length)],
            0⟩)) ∧
    (∀ (apiKey : Option String)
        (oracles : String → (Nat → CallOutcome) × (Nat → CallOutcome)),
      truthy apiKey = false →
      run_pipeline true apiKey fetchResult oracles limit db now =
        ((pipelineIngest fetchResult db now).db,
          ⟨(pipelineIngest fetchResult db now).fetched_count,
            (pipelineIngest fetchResult db now).fetched_total,
            (pipelineIngest fetchResult db now).skipped_existing,
            (get_unsummarized_for_pmids (pipelineIngest fetchResult db now).db
              (pipelineIngest fetchResult db now).new_pmids limit).length,
            0,
            (get_unsummarized_for_pmids (pipelineIngest fetchResult db now).db
              (pipelineIngest fetchResult db now).new_pmids limit).length,
            0, 0, 0,
            [("missing_gemini_api_key",
              (get_unsummarized_for_pmids (pipelineIngest fetchResult db now).db
                (pipelineIngest fetchResult db now).new_pmids limit).length)],
            0⟩)) := by
  have hempty : (get_unsummarized_for_pmids (pipelineIngest fetchResult db now).db
      (pipelineIngest fetchResult db now).new_pmids limit).isEmpty = false := by
    simp [List.isEmpty_iff, hpend]
  constructor
  · intro apiKey oracles
    unfold run_pipeline
    simp only [hempty]
    simp
  · intro apiKey oracles hkey
    unfold run_pipeline
    simp only [hempty, hkey]
    simp

/-- C9 witness: one pending article, missing client library. -/
theorem C9_short_circuit_witness :
    get_unsummarized_for_pmids (pipelineIngest c9Fetch [] "t1").db
        (pipelineIngest c9Fetch [] "t1").new_pmids 200 ≠ [] ∧
    run_pipeline false none c9Fetch c9Oracles 200 [] "t1" =
      ((pipelineIngest c9Fetch [] "t1").db,
        ⟨(pipelineIngest c9Fetch [] "t1").fetched_count,
          (pipelineIngest c9Fetch [] "t1").fetched_total,
          (pipelineIngest c9Fetch [] "t1").skipped_existing,
          (get_unsummarized_for_pmids (pipelineIngest c9Fetch [] "t1").db
            (pipelineIngest c9Fetch [] "t1").new_pmids 200).length,
          0,
          (get_unsummarized_for_pmids (pipelineIngest c9Fetch [] "t1").db
            (pipelineIngest c9Fetch [] "t1").new_pmids 200).length,
          0, 0, 0,
          [("missing_google_genai",
            (get_unsummarized_for_pmids (pipelineIngest c9Fetch [] "t1").db
              (pipelineIngest c9Fetch [] "t1").new_pmids 200).length)],
          0⟩) :=
  ⟨by decide, (C9_short_circuit c9Fetch 200 [] "t1" (by decide)).1 none c9Oracles⟩

/-! ## C4: per-subscriber delivery idempotency -/

theorem digest_fst (db : Db) (chat : Int) (target : String) :
    ∀ p ∈ (send_daily_digest db chat target).1, p.1 = chat := by
  intro p hp
  unfold send_daily_digest at hp
  by_cases h : (get_summarized_by_date db target).isEmpty = true
  · rw [if_pos h] at hp
    simp only [List.mem_singleton] at hp
    rw [hp]
  · rw [if_neg h] at hp
    rcases List.mem_cons.mp hp with rfl | hp2
    · rfl
    · rw [List.mem_map] at hp2
      obtain ⟨a, _, rfl⟩ := hp2
      rfl

theorem digest_ne_nil (db : Db) (chat : Int) (target : String) :
    (send_daily_digest db chat target).1 ≠ [] := by
  unfold send_daily_digest
  by_cases h : (get_summarized_by_date db target).isEmpty = true
  · rw [if_pos h]
    simp
  · rw [if_neg h]
    simp

theorem mark_delivery_append (log : List DeliveryRow) (chat : Int) (target : String)
    (cnt : Nat) (now : String) (h : was_delivered log chat target = false) :
    mark_delivery log chat target cnt now = log ++ [⟨chat, target, cnt, now⟩] := by
  unfold mark_delivery
  unfold was_delivered at h
  rw [h]
  simp

theorem was_delivered_append_ne (log : List DeliveryRow) (r : DeliveryRow) (c : Int)
    (t : String) (hne : ¬(r.chat_id = c ∧ r.target_date = t)) :
    was_delivered (log ++ [r]) c t = was_delivered log c t := by
  have hb : (r.chat_id == c && r.target_date == t) = false := by
    by_cases h1 : r.chat_id = c
    · by_cases h2 : r.target_date = t
      · exact absurd ⟨h1, h2⟩ hne
      · simp [h2]
    · simp [h1]
  unfold was_delivered
  rw [List.any_append]
  simp [hb]

theorem was_delivered_append_self (log : List DeliveryRow) (c : Int) (t : String)
    (cnt : Nat) (now : String) :
    was_delivered (log ++ [⟨c, t, cnt, now⟩]) c t = true := by
  unfold was_delivered
  rw [List.any_append]
  simp

theorem delivFilter_append (log : List DeliveryRow) (r : DeliveryRow) (c : Int) (t : String) :
    delivFilter (log ++ [r]) c t =
      delivFilter log c t ++
        (if (r.chat_id == c && r.target_date == t) = true then [r] else []) := by
  unfold delivFilter
  rw [List.filter_append]
  congr 1
  simp [List.filter_singleton]

theorem delivFilter_nil_of_not_delivered (log : List DeliveryRow) (c : Int) (t : String)
    (h : was_delivered log c t = false) : delivFilter log c t = [] := by
  unfold delivFilter
  unfold was_delivered at h
  refine List.filter_eq_nil.mpr ?_
  intro a ha hpa
  rw [List.any_eq_false] at h
  exact absurd hpa (h a ha)

/-- C4: for every active-subscriber list (distinct chat ids, as returned by
the store), the delivery step sends messages exactly to the subscribers
without an existing delivery record for the target date (a subscriber with
a record receives nothing and its log entries are untouched), and writes
exactly one new delivery record per newly served subscriber, carrying the
count of articles actually sent — so the log grows by exactly the number of
not-yet-served subscribers. -/
theorem C4_delivery_idempotent (db : Db) (target : String) (now : String) :
    ∀ (subs : List Int) (log : List DeliveryRow), subs.Nodup →
      (∀ c m, (c, m) ∈ (run_daily_send_if_needed db subs target log now).2 →
        c ∈ subs ∧ was_delivered log c target = false) ∧
      (∀ c ∈ subs, was_delivered log c target = false →
        ∃ m, (c, m) ∈ (run_daily_send_if_needed db subs target log now).2) ∧
      ((run_daily_send_if_needed db subs target log now).1.length =
        log.length + (subs.filter (fun c => !(was_delivered log c target))).length) ∧
      (∀ c ∈ subs, was_delivered log c target = false →
        delivFilter (run_daily_send_if_needed db subs target log now).1 c target =
          [⟨c, target, (send_daily_digest db c target).2, now⟩]) ∧
      (∀ c, was_delivered log c target = true →
        delivFilter (run_daily_send_if_needed db subs target log now).1 c target =
          delivFilter log c target) := by
  intro subs
  induction subs with
  | nil =>
    intro log _
    refine ⟨?_, ?_, ?_, ?_, ?_⟩ <;> simp [run_daily_send_if_needed]
  | cons chat rest ih =>
    intro log hn
    have hchat : chat ∉ rest := (List.nodup_cons.mp hn).1
    have hnr : rest.Nodup := (List.nodup_cons.mp hn).2
    by_cases h1 : was_delivered log chat target = true
    · have hstep : run_daily_send_if_needed db (chat :: rest) target log now =
          run_daily_send_if_needed db rest target log now := by
        simp only [run_daily_send_if_needed]
        rw [if_pos h1]
      obtain ⟨ih1, ih2, ih3, ih4, ih5⟩ := ih log hnr
      rw [hstep]
      refine ⟨?_, ?_, ?_, ?_, ?_⟩
      · intro c m hm
        obtain ⟨hc, hw⟩ := ih1 c m hm
        exact ⟨List.mem_cons_of_mem _ hc, hw⟩
      · intro c hc hw
        rcases List.mem_cons.mp hc with rfl | hc2
        · exact absurd h1 (by simp [hw])
        · exact ih2 c hc2 hw
      · rw [ih3, List.filter_cons]
        simp [h1]
      · intro c hc hw
        rcases List.mem_cons.mp hc with rfl | hc2
        · exact absurd h1 (by simp [hw])
        · exact ih4 c hc2 hw
      · intro c hw
        exact ih5 c hw
    · have h1f : was_delivered log chat target = false := by
        simpa using h1
      have hstep : run_daily_send_if_needed db (chat :: rest) target log now =
          ((run_daily_send_if_needed db rest target
              (log ++ [⟨chat, target, (send_daily_digest db chat target).2, now⟩]) now).1,
            (send_daily_digest db chat target).1 ++
              (run_daily_send_if_needed db rest target
                (log ++ [⟨chat, target, (send_daily_digest db chat target).2, now⟩]) now).2) := by
        simp only [run_daily_send_if_needed]
        rw [if_neg h1, mark_delivery_append log chat target _ now h1f]
      obtain ⟨ih1, ih2, ih3, ih4, ih5⟩ :=
        ih (log ++ [⟨chat, target, (send_daily_digest db chat target).2, now⟩]) hnr
      have hwd_pres : ∀ c : Int, c ≠ chat →
          was_delivered (log ++ [⟨chat, target, (send_daily_digest db chat target).2, now⟩])
            c target = was_delivered log c target := by
        intro c hc
        apply was_delivered_append_ne
        intro hcontra
        exact hc (hcontra.1.symm)
      rw [hstep]
      refine ⟨?_, ?_, ?_, ?_, ?_⟩
      · intro c m hm
        rcases List.mem_append.mp hm with hml | hmr
        · have := digest_fst db chat target (c, m) hml
          simp only at this
          subst this
          exact ⟨List.mem_cons_self _ _, h1f⟩
        · obtain ⟨hc, hw⟩ := ih1 c m hmr
          have hne : c ≠ chat := fun hcc => hchat (hcc ▸ hc)
          rw [hwd_pres c hne] at hw
          exact ⟨List.mem_cons_of_mem _ hc, hw⟩
      · intro c hc hw
        rcases List.mem_cons.mp hc with rfl | hc2
        · obtain ⟨p, hp⟩ := List.exists_mem_of_ne_nil _ (digest_ne_nil db c target)
          refine ⟨p.2, List.mem_append_left _ ?_⟩
          have hfst := digest_fst db c target p hp
          have hpe : (c, p.2) = p := by
            rw [← hfst]
          rw [hpe]
          exact hp
        · have hne : c ≠ chat := fun hcc => hchat (hcc ▸ hc2)
          obtain ⟨m, hm⟩ := ih2 c hc2 (by rw [hwd_pres c hne]; exact hw)
          exact ⟨m, List.mem_append_right _ hm⟩
      · rw [ih3, List.length_append, List.filter_cons]
        have hfeq : rest.filter (fun c =>
            !(was_delivered (log ++ [⟨chat, target, (send_daily_digest db chat target).2, now⟩])
              c target)) = rest.filter (fun c => !(was_delivered log c target)) := by
          apply List.filter_congr
          intro c hc
          have hne : c ≠ chat := fun hcc => hchat (hcc ▸ hc)
          rw [hwd_pres c hne]
        rw [hfeq]
        simp [h1f]
        omega
      · intro c hc hw
        rcases List.mem_cons.mp hc with rfl | hc2
        · rw [ih5 c (was_delivered_append_self log c target _ now),
            delivFilter_append, delivFilter_nil_of_not_delivered log c target h1f]
          simp
        · have hne : c ≠ chat := fun hcc => hchat (hcc ▸ hc2)
          exact ih4 c hc2 (by rw [hwd_pres c hne]; exact hw)
      · intro c hw
        have hne : c ≠ chat := by
          intro hcc
          rw [hcc] at hw
          rw [hw] at h1f
          cases h1f
        rw [ih5 c (by rw [hwd_pres c hne]; exact hw), delivFilter_append]
        have hcc : ¬ (chat = c) := fun hcc => hne hcc.symm
        simp [hcc]

/-- C4 witness: two subscribers, subscriber 1 already served for
2024-03-01 — only subscriber 2 gets messages and exactly one record is
appended. -/
theorem C4_delivery_idempotent_witness :
    ([1, 2] : List Int).Nodup ∧
    (∀ c m, (c, m) ∈ (run_daily_send_if_needed c4Db [1, 2] "2024-03-01" c4Log "t9").2 →
      c ∈ ([1, 2] : List Int) ∧ was_delivered c4Log c "2024-03-01" = false) ∧
    ((run_daily_send_if_needed c4Db [1, 2] "2024-03-01" c4Log "t9").1.length =
      c4Log.length + (([1, 2] : List Int).filter
        (fun c => !(was_delivered c4Log c "2024-03-01"))).length) := by
  have h := C4_delivery_idempotent c4Db "2024-03-01" "t9" [1, 2] c4Log (by decide)
  exact ⟨by decide, h.1, h.2.2.1⟩

/-! ## C6: the section-parser round trip -/

theorem lookup_map_self {α : Type} (f : String → α) (keys : List String) (k : String) :
    (keys.map (fun x => (x, f x))).lookup k = if k ∈ keys then some (f k) else none := by
  induction keys with
  | nil => simp
  | cons a l ih =>
    simp only [List.map_cons, List.lookup]
    by_cases h : (k == a) = true
    · rw [h]
      have hka : k = a := by simpa using h
      simp [hka]
    · have hne : ¬ k = a := by simpa using h
      rw [show (k == a) = false by simpa using hne]
      rw [ih]
      by_cases hk : k ∈ l
      · simp [hk, hne]
      · simp [hk, hne]

theorem psLoop_no_tags (keys : List String) (ls : List String) :
    ∀ (k : String) (b : List String) (secs : List (String × List (List String))),
      (∀ l ∈ ls, notRecognized keys l = true) →
      psLoop keys ls (some (k, b)) secs = psFlush (some (k, b ++ ls)) secs := by
  induction ls with
  | nil =>
    intro k b secs _
    simp [psLoop]
  | cons l ls2 ih =>
    intro k b secs h
    have hl := h l (List.mem_cons_self _ _)
    have hrest : ∀ x ∈ ls2, notRecognized keys x = true :=
      fun x hx => h x (List.mem_cons_of_mem _ hx)
    have happ : (b ++ [l]) ++ ls2 = b ++ (l :: ls2) := by simp
    cases htag : tagSplit l with
    | none =>
      simp only [psLoop, htag, contAppend]
      rw [ih k (b ++ [l]) secs hrest, happ]
    | some p =>
      obtain ⟨t, head⟩ := p
      have hc : keys.contains t = false := by
        unfold notRecognized at hl
        rw [htag] at hl
        simpa using hl
      simp only [psLoop, htag]
      rw [if_neg (by rw [hc]; simp)]
      simp only [contAppend]
      rw [ih k (b ++ [l]) secs hrest, happ]

theorem secAppend_init (keys : List String) (k0 : String) (b : List String) :
    secAppend (keys.map (fun k => (k, ([] : List (List String))))) k0 b =
      keys.map (fun k => (k, if k = k0 then [b] else [])) := by
  unfold secAppend
  rw [List.map_map]
  apply List.map_congr_left
  intro x _
  by_cases h : x = k0
  · simp [Function.comp, h]
  · simp [Function.comp, h]

/-- C6 (amended): for every text whose normalized, stripped content splits
into the tag line "EN_SUMMARY:" followed by N lines none of which is a
recognized tag line, `parse_sections` returns under "EN_SUMMARY" the
concatenation of those N lines with leading/trailing whitespace trimmed and
every run of 3 or more consecutive newline characters collapsed to exactly
two (so 2+ consecutive blank lines become a single blank line) — except
that a whitespace-only concatenation yields null — and returns null for
every other requested key; an absent tag never raises an error. -/
theorem C6_parse_roundtrip (text : String) (keys : List String) (lines : List String)
    (hsplit : pySplitlines (pyStrip (String.mk (replaceCrLf text.data))) =
      "EN_SUMMARY:" :: lines)
    (hkey : "EN_SUMMARY" ∈ keys)
    (hno : ∀ l ∈ lines, notRecognized keys l = true) :
    ((parse_sections text keys).lookup "EN_SUMMARY" =
      some (if pyStrip (joinNl lines) = "" then none
        else some (collapseBlank (pyStrip (joinNl lines))))) ∧
    (∀ k ∈ keys, k ≠ "EN_SUMMARY" → (parse_sections text keys).lookup k = some none) := by
  have htext : text ≠ "" := by
    intro h
    rw [h] at hsplit
    rw [show pySplitlines (pyStrip (String.mk (replaceCrLf ("" : String).data))) = []
      from rfl] at hsplit
    cases hsplit
  have hck : keys.contains "EN_SUMMARY" = true := by simpa using hkey
  have hstep1 : psLoop keys ("EN_SUMMARY:" :: lines) none
      (keys.map (fun k => (k, ([] : List (List String))))) =
      psLoop keys lines (some ("EN_SUMMARY", []))
        (keys.map (fun k => (k, ([] : List (List String))))) := by
    simp only [psLoop, show tagSplit "EN_SUMMARY:" = some ("EN_SUMMARY", "") from rfl]
    rw [if_pos hck]
    simp [psFlush]
  have hloop : psLoop keys (pySplitlines (pyStrip (String.mk (replaceCrLf text.data)))) none
      (keys.map (fun k => (k, ([] : List (List String))))) =
      psFlush (some ("EN_SUMMARY", lines))
        (keys.map (fun k => (k, ([] : List (List String))))) := by
    rw [hsplit, hstep1, psLoop_no_tags keys lines "EN_SUMMARY" [] _ hno]
    rw [List.nil_append]
  have hparse : parse_sections text keys =
      keys.map (fun k => (k,
        match (psFlush (some ("EN_SUMMARY", lines))
            (keys.map (fun k2 => (k2, ([] : List (List String)))))).lookup k with
        | some blocks => sectionValue blocks
        | none => none)) := by
    simp only [parse_sections]
    rw [if_neg htext, hloop]
  rw [hparse]
  cases lines with
  | nil =>
    constructor
    · rw [lookup_map_self, if_pos hkey]
      rw [show psFlush (some ("EN_SUMMARY", ([] : List String)))
          (keys.map (fun k2 => (k2, ([] : List (List String))))) =
        keys.map (fun k2 => (k2, ([] : List (List String)))) from rfl]
      rw [lookup_map_self, if_pos hkey]
      rfl
    · intro k hk _
      rw [lookup_map_self, if_pos hk]
      rw [show psFlush (some ("EN_SUMMARY", ([] : List String)))
          (keys.map (fun k2 => (k2, ([] : List (List String))))) =
        keys.map (fun k2 => (k2, ([] : List (List String)))) from rfl]
      rw [lookup_map_self, if_pos hk]
      rfl
  | cons l ls =>
    have hflush : psFlush (some ("EN_SUMMARY", l :: ls))
        (keys.map (fun k2 => (k2, ([] : List (List String))))) =
        keys.map (fun k2 => (k2, if k2 = "EN_SUMMARY" then [l :: ls] else [])) := by
      simp only [psFlush, List.isEmpty_cons]
      rw [if_neg (by simp)]
      exact secAppend_init keys "EN_SUMMARY" (l :: ls)
    rw [hflush]
    constructor
    · rw [lookup_map_self, if_pos hkey, lookup_map_self, if_pos hkey,
        if_pos (rfl : ("EN_SUMMARY" : String) = "EN_SUMMARY")]
      show some (sectionValue [l :: ls]) = _
      by_cases hv : blockValue (l :: ls) = ""
      · have hv2 : pyStrip (joinNl (l :: ls)) = "" := hv
        rw [if_pos hv2]
        unfold sectionValue
        simp [List.filterMap, hv]
      · have hv2 : ¬ pyStrip (joinNl (l :: ls)) = "" := hv
        rw [if_neg hv2]
        unfold sectionValue
        simp [List.filterMap, hv]
        rfl
    · intro k hk hkne
      rw [lookup_map_self, if_pos hk, lookup_map_self, if_pos hk, if_neg hkne]
      rfl

/-- C6 counterexample: three consecutive blank lines between "a" and "b"
(four newline characters) are collapsed by the code to a single blank line
("a\n\nb"), not to the two blank lines ("a\n\n\nb") the claim's collapse
rule describes. -/
theorem C6_counterexample :
    (parse_sections "EN_SUMMARY:\na\n\n\n\nb" ["EN_SUMMARY"]).lookup "EN_SUMMARY" =
      some (some "a\n\nb") ∧ ("a\n\nb" : String) ≠ "a\n\n\nb" := by
  constructor
  · decide
  · decide

/-- C6 witness: a one-line section round-trips through the parser, and the
other requested key is null. -/
theorem C6_parse_roundtrip_witness :
    (pySplitlines (pyStrip (String.mk (replaceCrLf c6Text.data))) =
      "EN_SUMMARY:" :: c6Lines) ∧
    ((parse_sections c6Text c6Keys).lookup "EN_SUMMARY" =
      some (if pyStrip (joinNl c6Lines) = "" then none
        else some (collapseBlank (pyStrip (joinNl c6Lines))))) ∧
    (∀ k ∈ c6Keys, k ≠ "EN_SUMMARY" → (parse_sections c6Text c6Keys).lookup k = some none) := by
  have h := C6_parse_roundtrip c6Text c6Keys c6Lines (by decide) (by decide) (by decide)
  exact ⟨by decide, h.1, h.2⟩

end MedBot
